import Mathlib

/-!
Verification of the PyGram PQ-gram library against its specification.

The repository ships `t_PyGram.py` (the unit tests) under `src/`; the core
module `PyGram.py` (classes `Profile` and `ShiftRegister`) and `tree.py`
(class `Node`) are not present there, so the core is modelled from the
specification (§3, §4.1, §4.2, §4.3, §9), while the test helper
`checkProfileEquality` is embedded directly from `t_PyGram.py`.
-/

namespace PyGram

/-- Modelled from the spec: `tree.Node` is not under src/. §3 "Tree Node":
an ordered, rooted, labeled tree node with zero or more owned children;
insertion order of children (`addkid` appends) is preserved. -/
inductive Node where
  | mk (label : String) (children : List Node)

def Node.label : Node → String
  | .mk l _ => l

def Node.children : Node → List Node
  | .mk _ c => c

/-- Modelled from the spec: the reserved placeholder token (§3, Glossary),
`"*"` in the tests. -/
def placeholder : String := "*"

namespace ShiftRegister

/-- Modelled from the spec: `PyGram.ShiftRegister.__init__` is not under
src/. §4.1: `new(capacity)` → register of length `capacity`, all
placeholder. -/
def new (capacity : ℕ) : List String :=
  List.replicate capacity placeholder

/-- Modelled from the spec: `PyGram.ShiftRegister.shift` is not under src/.
§4.1: `shift(newLabel)` removes the leftmost (oldest) element and appends
`newLabel` at the right. -/
def shift (r : List String) (newLabel : String) : List String :=
  r.drop 1 ++ [newLabel]

/-- Modelled from the spec: `PyGram.ShiftRegister.concatenate` is not under
src/. §4.1: returns a new ordered sequence that is this register's contents
followed by the other's contents; no mutation of either operand (the model
is purely functional, so immutability is inherent). -/
def concatenate (r other : List String) : List String :=
  r ++ other

/-- Modelled from the spec: §7 lists a non-positive capacity given to a
Context Register as an InvalidParameter error, but §9 states the source
performs no such validation ("the source does not validate p,q positivity");
following §9, construction always succeeds for any integer capacity
(a non-positive capacity simply yields an empty register). -/
def newE (capacity : ℤ) : Except String (List String) :=
  .ok (new capacity.toNat)

end ShiftRegister

/-- Modelled from the spec: the trailing boundary loop of §4.2 step 3,
"after the last real child, perform exactly q−1 further iterations of
`shift(placeholder)` into S, emitting a gram after each shift". The
argument `k` counts the remaining iterations (initially q−1). -/
def trailing (An S : List String) : ℕ → List (List String)
  | 0 => []
  | k + 1 =>
    let Sc := ShiftRegister.shift S placeholder
    ShiftRegister.concatenate An Sc :: trailing An Sc k

mutual

/-- Modelled from the spec: `PyGram.Profile.profile` is not under src/.
§4.2: at entry to a node `n` with ancestor register `A`, shift `label(n)`
into a copy of `A` giving `A_n`; a leaf emits the single gram
`A_n.concatenate(S)` with `S` all-placeholder of capacity q; an inner node
processes its children left to right (see `profileKids`). -/
def profileNode (q : ℕ) (A : List String) : Node → List (List String)
  | .mk lbl kids =>
    let An := ShiftRegister.shift A lbl
    match kids with
    | [] => [ShiftRegister.concatenate An (ShiftRegister.new q)]
    | c :: rest => profileKids q An (ShiftRegister.new q) (c :: rest)

/-- Modelled from the spec: §4.2 step 3. For each child `c_i` in order:
shift `label(c_i)` into the sibling register `S`, emit `A_n.concatenate(S)`,
recurse into `c_i` with ancestor register `A_n` (passed by value); after
the last child, emit the q−1 trailing boundary grams. -/
def profileKids (q : ℕ) (An S : List String) : List Node → List (List String)
  | [] => trailing An S (q - 1)
  | c :: rest =>
    let Sc := ShiftRegister.shift S c.label
    ShiftRegister.concatenate An Sc ::
      (profileNode q An c ++ profileKids q An Sc rest)

end

/-- Modelled from the spec: `PyGram.Profile.__init__` is not under src/.
§4.2: recursive descent from `root` with an all-placeholder ancestor
register of capacity p; the emitted grams accumulate, order-independent
and duplicate-preserving, into the profile's multiset (§4.2 step 4). -/
def buildProfile (root : Node) (p q : ℕ) : Multiset (List String) :=
  ↑(profileNode q (ShiftRegister.new p) root)

/-- Modelled from the spec: §4.2/§7 describe an InvalidParameter failure for
p < 1 or q < 1 at profile construction, but §9 states "the source does not
validate p,q positivity or guard against cyclic trees"; following §9, the
model accepts every integer p, q and never fails. -/
def buildProfileE (root : Node) (p q : ℤ) : Except String (Multiset (List String)) :=
  .ok (buildProfile root p.toNat q.toNat)

/-- Modelled from the spec: `PyGram.Profile.edit_distance` is not under
src/. §4.3: `overlap` is the multiset-intersection cardinality (for each
distinct gram, the minimum of its two counts, summed over all distinct
values), and `distance = 1 - (2 * overlap) / (|profileA| + |profileB|)`. -/
def editDistance (A B : Multiset (List String)) : ℚ :=
  1 - 2 * ((A ∩ B).card : ℚ) / ((A.card : ℚ) + (B.card : ℚ))

/-- Rounding to two decimal places, as `round(x, 2)` is used in
`ProfileCheck.testKnownValues` (the compared value 400/13 is not a tie, so
any tie-breaking convention gives the same result). -/
def roundTo2 (x : ℚ) : ℚ :=
  ((round (x * 100) : ℤ) : ℚ) / 100

/-- Embedded from `t_PyGram.py` lines 13-28, `ProfileCheck.checkProfileEquality`:
returns False when the profile lengths or the first grams' lengths differ,
otherwise True when every gram of `profile1` occurs (somewhere) in
`profile2`. When both profiles are empty the Python code raises IndexError
at `profile1[0]`; that path is `none`. -/
def checkProfileEquality (profile1 profile2 : List (List String)) : Option Bool :=
  if profile1.length ≠ profile2.length then some false
  else
    match profile1, profile2 with
    | g1 :: _, g2 :: _ =>
      if g1.length ≠ g2.length then some false
      else some (profile1.all fun gram1 => profile2.any fun gram2 => gram1 == gram2)
    | _, _ => none

/-- The tree `a(a(e,b), b, c)` of `ProfileCheck.setUp` (known_tree1),
built with `addkid` appending children in order. -/
def known_tree1 : Node :=
  .mk "a" [.mk "a" [.mk "e" [], .mk "b" []], .mk "b" [], .mk "c" []]

/-- The tree `a(a(e,b), b, x)` of `ProfileCheck.setUp` (known_tree2). -/
def known_tree2 : Node :=
  .mk "a" [.mk "a" [.mk "e" [], .mk "b" []], .mk "b" [], .mk "x" []]

/-- The expected profile of `known_tree1` (`ProfileCheck.setUp`,
known_profile1). -/
def known_profile1 : List (List String) :=
  [["*","a","*","*","a"], ["a","a","*","*","e"], ["a","e","*","*","*"],
   ["a","a","*","e","b"], ["a","b","*","*","*"], ["a","a","e","b","*"],
   ["a","a","b","*","*"], ["*","a","*","a","b"], ["a","b","*","*","*"],
   ["*","a","a","b","c"], ["a","c","*","*","*"], ["*","a","b","c","*"],
   ["*","a","c","*","*"]]

/-- The tree `a(c,c,c)`: first leg of the triangle-inequality
counterexample. -/
def tA : Node := .mk "a" [.mk "c" [], .mk "c" [], .mk "c" []]

/-- The tree `a(c,c,c,d,d,d)`: middle profile of the triangle-inequality
counterexample, sharing grams with both `tA` and `tC`. -/
def tB : Node :=
  .mk "a" [.mk "c" [], .mk "c" [], .mk "c" [], .mk "d" [], .mk "d" [], .mk "d" []]

/-- The tree `a(d,d,d)`: last leg of the triangle-inequality
counterexample; its profile is disjoint from that of `tA`. -/
def tC : Node := .mk "a" [.mk "d" [], .mk "d" [], .mk "d" []]

/- ------------------------------------------------------------------ -/
/- Helper lemmas shared by the claim theorems.                         -/
/- ------------------------------------------------------------------ -/

/-- The edit-distance formula is symmetric in its two profiles. -/
theorem editDistance_comm (A B : Multiset (List String)) :
    editDistance A B = editDistance B A := by
  rw [editDistance, editDistance, Multiset.inter_comm, add_comm]

/-- A profile built from any tree contains at least one gram: a leaf emits
one gram, and a node with children emits a gram for its first child. -/
theorem profileNode_ne_nil (q : ℕ) (A : List String) (n : Node) :
    profileNode q A n ≠ [] := by
  rcases n with ⟨lbl, kids⟩
  cases kids with
  | nil => simp [profileNode]
  | cons c rest => simp [profileNode, profileKids]

theorem buildProfile_ne_zero (root : Node) (p q : ℕ) :
    buildProfile root p q ≠ 0 := by
  rw [buildProfile]
  intro h
  exact profileNode_ne_nil q (ShiftRegister.new p) root ((Multiset.coe_eq_zero _).mp h)

theorem one_le_card_buildProfile (root : Node) (p q : ℕ) :
    (1 : ℚ) ≤ ((buildProfile root p q).card : ℚ) := by
  have h : 0 < (buildProfile root p q).card :=
    Multiset.card_pos.mpr (buildProfile_ne_zero root p q)
  exact_mod_cast h

/-- Multiset form of `min(a,b) + min(b,c) ≤ b + min(a,c)`: the overlap
cardinalities of three multisets satisfy the key triangle estimate. -/
theorem inter_card_add_inter_card_le (A B C : Multiset (List String)) :
    (A ∩ B).card + (B ∩ C).card ≤ B.card + (A ∩ C).card := by
  have h : (A ∩ B) + (B ∩ C) ≤ B + (A ∩ C) := by
    rw [Multiset.le_iff_count]
    intro g
    simp only [Multiset.count_add, Multiset.count_inter]
    omega
  simpa using Multiset.card_le_card h

theorem inter_card_le_left (A B : Multiset (List String)) :
    ((A ∩ B).card : ℚ) ≤ (A.card : ℚ) := by
  exact_mod_cast Multiset.card_le_card (Multiset.inter_le_left A B)

theorem inter_card_le_right (A B : Multiset (List String)) :
    ((A ∩ B).card : ℚ) ≤ (B.card : ℚ) := by
  exact_mod_cast Multiset.card_le_card (Multiset.inter_le_right A B)

/-- In the degenerate cases of the relaxed triangle inequality (the middle
profile much larger than the outer two), the right-hand side alone is
already at least 1. -/
theorem dice_relaxed_big (a b c x y : ℚ)
    (ha : 1 ≤ a) (hb : 1 ≤ b) (hc : 1 ≤ c)
    (_hx0 : 0 ≤ x) (_hy0 : 0 ≤ y)
    (hxa : x ≤ a) (hxb : x ≤ b) (hyb : y ≤ b) (hyc : y ≤ c)
    (hbig : a + 2 * c < b ∨ c + 2 * a < b) :
    (1 : ℚ) ≤ 2 * ((1 - 2 * x / (a + b)) + (1 - 2 * y / (b + c))) := by
  have hab : (0 : ℚ) < a + b := by linarith
  have hbc : (0 : ℚ) < b + c := by linarith
  have hu0 : (0 : ℚ) ≤ 1 - 2 * x / (a + b) := by
    rw [sub_nonneg, div_le_one hab]; linarith
  have hv0 : (0 : ℚ) ≤ 1 - 2 * y / (b + c) := by
    rw [sub_nonneg, div_le_one hbc]; linarith
  rcases le_total a c with hlc | hlc
  · have h3a : 3 * a < b := by rcases hbig with h | h <;> linarith
    have hu : 2 * x / (a + b) ≤ 1 / 2 := by
      rw [div_le_div_iff₀ hab (by norm_num : (0 : ℚ) < 2)]
      linarith
    linarith
  · have h3c : 3 * c < b := by rcases hbig with h | h <;> linarith
    have hv : 2 * y / (b + c) ≤ 1 / 2 := by
      rw [div_le_div_iff₀ hbc (by norm_num : (0 : ℚ) < 2)]
      linarith
    linarith

/-- Arithmetic core of the relaxed triangle inequality for the Dice-style
distance `1 - 2·overlap/(|A|+|B|)`: with `a,b,c` the three cardinalities
and `x,y,z` the three overlaps, the key multiset estimate `x + y ≤ b + z`
yields the inequality with factor 2. -/
theorem dice_relaxed (a b c x y z : ℚ)
    (ha : 1 ≤ a) (hb : 1 ≤ b) (hc : 1 ≤ c)
    (hx0 : 0 ≤ x) (hy0 : 0 ≤ y) (hz0 : 0 ≤ z)
    (hxa : x ≤ a) (hxb : x ≤ b) (hyb : y ≤ b) (hyc : y ≤ c)
    (hkey : x + y ≤ b + z) :
    1 - 2 * z / (a + c) ≤ 2 * ((1 - 2 * x / (a + b)) + (1 - 2 * y / (b + c))) := by
  have hab : (0 : ℚ) < a + b := by linarith
  have hbc : (0 : ℚ) < b + c := by linarith
  have hac : (0 : ℚ) < a + c := by linarith
  have hw1 : 1 - 2 * z / (a + c) ≤ 1 := by
    have : 0 ≤ 2 * z / (a + c) := by positivity
    linarith
  rcases le_or_lt b (a + 2 * c) with h1 | h1
  · rcases le_or_lt b (c + 2 * a) with h2 | h2
    · have hxN : (0 : ℚ) ≤ a + b - 2 * x := by linarith
      have hyN : (0 : ℚ) ≤ b + c - 2 * y := by linarith
      have e1 : 1 - 2 * z / (a + c) = (a + c - 2 * z) / (a + c) := by field_simp
      have e2 : 1 - 2 * x / (a + b) = (a + b - 2 * x) / (a + b) := by field_simp
      have e3 : 1 - 2 * y / (b + c) = (b + c - 2 * y) / (b + c) := by field_simp
      rw [e1, e2, e3]
      have step1 : (a + c - 2 * z) / (a + c) ≤
          (a + b - 2 * x) / (a + c) + (b + c - 2 * y) / (a + c) := by
        rw [div_add_div_same, div_le_div_iff_of_pos_right hac]
        linarith
      have step2 : (a + b - 2 * x) / (a + c) ≤ 2 * ((a + b - 2 * x) / (a + b)) := by
        rw [show (2 : ℚ) * ((a + b - 2 * x) / (a + b)) =
              2 * (a + b - 2 * x) / (a + b) from (mul_div_assoc _ _ _).symm]
        rw [div_le_div_iff₀ hac hab]
        nlinarith [mul_le_mul_of_nonneg_left (show a + b ≤ 2 * (a + c) by linarith) hxN]
      have step3 : (b + c - 2 * y) / (a + c) ≤ 2 * ((b + c - 2 * y) / (b + c)) := by
        rw [show (2 : ℚ) * ((b + c - 2 * y) / (b + c)) =
              2 * (b + c - 2 * y) / (b + c) from (mul_div_assoc _ _ _).symm]
        rw [div_le_div_iff₀ hac hbc]
        nlinarith [mul_le_mul_of_nonneg_left (show b + c ≤ 2 * (a + c) by linarith) hyN]
      linarith
    · have := dice_relaxed_big a b c x y ha hb hc hx0 hy0 hxa hxb hyb hyc (Or.inr h2)
      linarith
  · have := dice_relaxed_big a b c x y ha hb hc hx0 hy0 hxa hxb hyb hyc (Or.inl h1)
    linarith

/-- Relaxed (factor 2) triangle inequality for `editDistance` on non-empty
gram multisets. -/
theorem editDistance_relaxed (A B C : Multiset (List String))
    (hA : A ≠ 0) (hB : B ≠ 0) (hC : C ≠ 0) :
    editDistance A C ≤ 2 * (editDistance A B + editDistance B C) := by
  have ha : (1 : ℚ) ≤ (A.card : ℚ) := by
    exact_mod_cast Multiset.card_pos.mpr hA
  have hb : (1 : ℚ) ≤ (B.card : ℚ) := by
    exact_mod_cast Multiset.card_pos.mpr hB
  have hc : (1 : ℚ) ≤ (C.card : ℚ) := by
    exact_mod_cast Multiset.card_pos.mpr hC
  have hx0 : (0 : ℚ) ≤ ((A ∩ B).card : ℚ) := by positivity
  have hy0 : (0 : ℚ) ≤ ((B ∩ C).card : ℚ) := by positivity
  have hz0 : (0 : ℚ) ≤ ((A ∩ C).card : ℚ) := by positivity
  have hkey : ((A ∩ B).card : ℚ) + ((B ∩ C).card : ℚ) ≤
      (B.card : ℚ) + ((A ∩ C).card : ℚ) := by
    exact_mod_cast inter_card_add_inter_card_le A B C
  have h := dice_relaxed (A.card : ℚ) (B.card : ℚ) (C.card : ℚ)
    ((A ∩ B).card : ℚ) ((B ∩ C).card : ℚ) ((A ∩ C).card : ℚ)
    ha hb hc hx0 hy0 hz0
    (inter_card_le_left A B) (inter_card_le_right A B)
    (inter_card_le_left B C) (inter_card_le_right B C) hkey
  simpa [editDistance] using h

/-- `editDistance` on non-empty gram multisets lies in `[0, 1]`. -/
theorem editDistance_mem_unit (A B : Multiset (List String))
    (hA : A ≠ 0) (hB : B ≠ 0) :
    0 ≤ editDistance A B ∧ editDistance A B ≤ 1 := by
  have ha : (1 : ℚ) ≤ (A.card : ℚ) := by
    exact_mod_cast Multiset.card_pos.mpr hA
  have hb : (1 : ℚ) ≤ (B.card : ℚ) := by
    exact_mod_cast Multiset.card_pos.mpr hB
  have hd : (0 : ℚ) < (A.card : ℚ) + (B.card : ℚ) := by linarith
  have hx0 : (0 : ℚ) ≤ ((A ∩ B).card : ℚ) := by positivity
  constructor
  · rw [editDistance, sub_nonneg, div_le_one hd]
    have h1 := inter_card_le_left A B
    have h2 := inter_card_le_right A B
    linarith
  · rw [editDistance]
    have : 0 ≤ 2 * ((A ∩ B).card : ℚ) / ((A.card : ℚ) + (B.card : ℚ)) := by positivity
    linarith

/- ------------------------------------------------------------------ -/
/- Claim theorems.                                                     -/
/- ------------------------------------------------------------------ -/

/-- C1: building a profile of the tree `a(a(e,b), b, c)` with p=2 and q=3
produces exactly the 13-gram multiset of `known_profile1`, with the same
multiplicities (the gram `(a,b,*,*,*)` appearing twice), in any order. -/
theorem profile_known_tree1_matches :
    buildProfile known_tree1 2 3 = ↑known_profile1 := by decide

/-- C2 counterexample: for the profiles of the trees `a(c,c,c)`,
`a(c,c,c,d,d,d)` and `a(d,d,d)` (p=2, q=3) the triangle inequality fails:
the outer distance is 1 while the two inner distances are 5/11 each,
summing to 10/11 < 1. -/
theorem editDistance_triangle_fails :
    ¬ (editDistance (buildProfile tA 2 3) (buildProfile tC 2 3) ≤
       editDistance (buildProfile tA 2 3) (buildProfile tB 2 3) +
       editDistance (buildProfile tB 2 3) (buildProfile tC 2 3)) := by
  have hAC : (buildProfile tA 2 3 ∩ buildProfile tC 2 3).card = 0 := by decide
  have hAB : (buildProfile tA 2 3 ∩ buildProfile tB 2 3).card = 6 := by decide
  have hBC : (buildProfile tB 2 3 ∩ buildProfile tC 2 3).card = 6 := by decide
  have hA : (buildProfile tA 2 3).card = 8 := by decide
  have hB : (buildProfile tB 2 3).card = 14 := by decide
  have hC : (buildProfile tC 2 3).card = 8 := by decide
  rw [editDistance, editDistance, editDistance, hAC, hAB, hBC, hA, hB, hC]
  norm_num

/-- C2 (amended): for every three profiles built with the same (p, q) the
normalized Dice-style distance satisfies the relaxed triangle inequality
with factor 2: `editDistance(A,C) ≤ 2·(editDistance(A,B) + editDistance(B,C))`
(the exact triangle inequality fails, see the counterexample). -/
theorem editDistance_relaxed_triangle (t1 t2 t3 : Node) (p q : ℕ) :
    editDistance (buildProfile t1 p q) (buildProfile t3 p q) ≤
      2 * (editDistance (buildProfile t1 p q) (buildProfile t2 p q) +
           editDistance (buildProfile t2 p q) (buildProfile t3 p q)) :=
  editDistance_relaxed _ _ _ (buildProfile_ne_zero t1 p q)
    (buildProfile_ne_zero t2 p q) (buildProfile_ne_zero t3 p q)

/-- C3: the edit distance between the profiles of `a(a(e,b),b,c)` and
`a(a(e,b),b,x)` (p=2, q=3) is exactly 4/13 (= 8/26), which rounded to two
decimal places is 0.31. -/
theorem editDistance_known_trees :
    editDistance (buildProfile known_tree1 2 3) (buildProfile known_tree2 2 3) = 4 / 13 ∧
    roundTo2 (editDistance (buildProfile known_tree1 2 3) (buildProfile known_tree2 2 3)) =
      31 / 100 := by
  have h1 : (buildProfile known_tree1 2 3 ∩ buildProfile known_tree2 2 3).card = 9 := by
    decide
  have h2 : (buildProfile known_tree1 2 3).card = 13 := by decide
  have h3 : (buildProfile known_tree2 2 3).card = 13 := by decide
  have hval : editDistance (buildProfile known_tree1 2 3) (buildProfile known_tree2 2 3) =
      4 / 13 := by
    rw [editDistance, h1, h2, h3]
    norm_num
  refine ⟨hval, ?_⟩
  rw [hval, roundTo2]
  have hround : round ((4 : ℚ) / 13 * 100) = 31 := by
    rw [round_eq]
    have : (4 : ℚ) / 13 * 100 + 1 / 2 = 813 / 26 := by norm_num
    rw [this, Int.floor_eq_iff]
    norm_num
  rw [hround]
  norm_num

/-- C4 counterexample: profile construction with p = 0 (< 1) succeeds, and
a Context Register of capacity 0 is likewise constructed without error, so
the claimed InvalidParameter failure does not occur. -/
theorem invalidParameter_not_raised :
    (buildProfileE (Node.mk "a" []) 0 3).isOk = true ∧
    (ShiftRegister.newE 0).isOk = true :=
  ⟨rfl, rfl⟩

/-- C4 (amended): per §9 the source performs no parameter validation:
profile construction accepts every integer p, q and Context Register
construction every integer capacity, and no InvalidParameter error is ever
raised. -/
theorem buildProfile_no_validation (root : Node) (p q capacity : ℤ) :
    (buildProfileE root p q).isOk = true ∧
    (ShiftRegister.newE capacity).isOk = true :=
  ⟨rfl, rfl⟩

/-- C5: for every two profiles built with the same (p, q),
`editDistance(A,B) = editDistance(B,A)`. -/
theorem editDistance_symm_of_profiles (t1 t2 : Node) (p q : ℕ) :
    editDistance (buildProfile t1 p q) (buildProfile t2 p q) =
      editDistance (buildProfile t2 p q) (buildProfile t1 p q) :=
  editDistance_comm _ _

/-- C6: for every two profiles produced by `buildProfile` (hence non-empty),
the edit distance lies in [0, 1]; the denominator `|A|+|B|` is positive and
the overlap never exceeds `(|A|+|B|)/2`. -/
theorem editDistance_bounds_of_profiles (t1 t2 : Node) (p q : ℕ) :
    0 ≤ editDistance (buildProfile t1 p q) (buildProfile t2 p q) ∧
    editDistance (buildProfile t1 p q) (buildProfile t2 p q) ≤ 1 ∧
    0 < (buildProfile t1 p q).card + (buildProfile t2 p q).card ∧
    2 * ((buildProfile t1 p q) ∩ (buildProfile t2 p q)).card ≤
      (buildProfile t1 p q).card + (buildProfile t2 p q).card := by
  obtain ⟨h0, h1⟩ := editDistance_mem_unit _ _
    (buildProfile_ne_zero t1 p q) (buildProfile_ne_zero t2 p q)
  refine ⟨h0, h1, ?_, ?_⟩
  · have := Multiset.card_pos.mpr (buildProfile_ne_zero t1 p q)
    omega
  · have ha := Multiset.card_le_card
      (Multiset.inter_le_left (buildProfile t1 p q) (buildProfile t2 p q))
    have hb := Multiset.card_le_card
      (Multiset.inter_le_right (buildProfile t1 p q) (buildProfile t2 p q))
    omega

/-- C7: for every label and every p ≥ 1, q ≥ 1, the profile of a
single-node tree contains exactly one gram: (p−1) placeholders, the label,
then q placeholders. -/
theorem profile_single_node (lbl : String) (p q : ℕ) (hp : 1 ≤ p) (hq : 1 ≤ q) :
    buildProfile (Node.mk lbl []) p q =
      {List.replicate (p - 1) placeholder ++ [lbl] ++ List.replicate q placeholder} := by
  obtain ⟨k, rfl⟩ : ∃ k, p = k + 1 := ⟨p - 1, (Nat.succ_pred_eq_of_pos hp).symm⟩
  rw [buildProfile]
  simp [profileNode, ShiftRegister.new, ShiftRegister.shift, ShiftRegister.concatenate,
    List.replicate_succ]

/-- Witness for C7 at lbl = "a", p = 2, q = 3: the unique gram is
`(*,a,*,*,*)`, exactly as in `ProfileCheck.setUp` (small_profile1). -/
theorem profile_single_node_witness :
    1 ≤ 2 ∧ 1 ≤ 3 ∧
    buildProfile (Node.mk "a" []) 2 3 = {["*", "a", "*", "*", "*"]} := by
  refine ⟨by norm_num, by norm_num, ?_⟩
  have h := profile_single_node "a" 2 3 (by norm_num) (by norm_num)
  simpa [placeholder] using h

/-- C8: `ShiftRegister.shift` removes the leftmost (oldest) element and
appends the new label at the right, keeping the length equal to the
capacity; in particular a register with contents [a,b,c], after shift(d),
has contents exactly [b,c,d]. -/
theorem shift_removes_left_appends_right :
    (∀ (x newLabel : String) (xs : List String),
        ShiftRegister.shift (x :: xs) newLabel = xs ++ [newLabel] ∧
        (ShiftRegister.shift (x :: xs) newLabel).length = (x :: xs).length) ∧
    ShiftRegister.shift ["a", "b", "c"] "d" = ["b", "c", "d"] := by
  refine ⟨fun x newLabel xs => ⟨rfl, ?_⟩, rfl⟩
  simp [ShiftRegister.shift]

/-- C9: `ShiftRegister.concatenate` returns the receiver's contents
followed by the other's contents, of length capacity(self) +
capacity(other); a capacity-2 register after shift(a), shift(b)
concatenated with a capacity-3 register after shift(c), shift(d), shift(e)
yields exactly [a,b,c,d,e]. -/
theorem concatenate_is_contents_append :
    (∀ r other : List String,
        (ShiftRegister.concatenate r other).length = r.length + other.length) ∧
    ShiftRegister.concatenate
        (ShiftRegister.shift (ShiftRegister.shift (ShiftRegister.new 2) "a") "b")
        (ShiftRegister.shift (ShiftRegister.shift
          (ShiftRegister.shift (ShiftRegister.new 3) "c") "d") "e") =
      ["a", "b", "c", "d", "e"] := by
  refine ⟨fun r other => ?_, rfl⟩
  simp [ShiftRegister.concatenate]

/-- C10 counterexample: `checkProfileEquality` answers True on
`[[a],[a],[b]]` versus `[[a],[b],[b]]`, although the two are different
multisets of grams (multiplicities are not compared). -/
theorem checkProfileEquality_ignores_multiplicity :
    checkProfileEquality [["a"], ["a"], ["b"]] [["a"], ["b"], ["b"]] = some true ∧
    (↑[["a"], ["a"], ["b"]] : Multiset (List String)) ≠ ↑[["a"], ["b"], ["b"]] := by
  constructor
  · decide
  · decide

/-- C10 (amended): for non-empty gram lists, `checkProfileEquality` returns
True iff the two lists have the same length, their first grams have the
same length, and every gram of the first list occurs (at least once) in the
second; multiset equality is neither required nor guaranteed. -/
theorem checkProfileEquality_iff (profile1 profile2 : List (List String))
    (h1 : profile1 ≠ []) (h2 : profile2 ≠ []) :
    checkProfileEquality profile1 profile2 = some true ↔
      (profile1.length = profile2.length ∧
       (profile1.headD []).length = (profile2.headD []).length ∧
       ∀ g ∈ profile1, g ∈ profile2) := by
  match profile1, profile2 with
  | g1 :: p1, g2 :: p2 =>
    simp only [checkProfileEquality]
    split_ifs with hl hg
    · simp only [List.length_cons] at hl
      constructor
      · intro h
        exact absurd (Option.some.inj h) (by simp)
      · intro ⟨h, _⟩
        exact absurd h hl
    · constructor
      · intro h
        exact absurd (Option.some.inj h) (by simp)
      · intro ⟨_, h, _⟩
        simp only [List.headD_cons] at h
        exact absurd h hg
    · push_neg at hl hg
      simp only [Option.some.injEq, List.all_eq_true, List.any_eq_true, beq_iff_eq,
        List.headD_cons]
      constructor
      · intro h
        exact ⟨hl, hg, fun g hem => by
          obtain ⟨g', hg', heq⟩ := h g hem
          exact heq ▸ hg'⟩
      · intro ⟨_, _, h⟩
        exact fun g hem => ⟨g, h g hem, rfl⟩

/-- Witness for C10 (amended) at `[[a]]` versus `[[a]]`: both sides of the
equivalence hold. -/
theorem checkProfileEquality_iff_witness :
    ([["a"]] : List (List String)) ≠ [] ∧ ([["a"]] : List (List String)) ≠ [] ∧
    (checkProfileEquality [["a"]] [["a"]] = some true ↔
      (([["a"]] : List (List String)).length = ([["a"]] : List (List String)).length ∧
       (([["a"]] : List (List String)).headD []).length =
         (([["a"]] : List (List String)).headD []).length ∧
       ∀ g ∈ ([["a"]] : List (List String)), g ∈ ([["a"]] : List (List String)))) :=
  ⟨by decide, by decide,
    checkProfileEquality_iff [["a"]] [["a"]] (by decide) (by decide)⟩

end PyGram
